import Mathlib

/-!
Verification development for the news-collection pipeline in
scripts/fetch_news.py and scripts/clean_news.py.

The Python code is shallowly embedded: dictionaries become a record type,
Python sets of titles become lists with membership tests, float similarity
scores become exact rationals built with mkRat, and the network / pandas
layers are abstracted into explicit outcome parameters.  All definitions
are executable so that concrete runs of the model can be checked by
kernel reduction.
-/

set_option maxRecDepth 100000

namespace NewsPipeline

/-- Lowercasing a string character by character.  Models Python str.lower
for the character ranges occurring in the scripts. -/
def lowerStr (s : String) : String := String.mk (s.data.map Char.toLower)

/-- Worker for splitting a character list on whitespace runs; acc holds the
characters of the current word in reverse order.  Models Python str.split()
with no argument: maximal whitespace runs separate words and no empty words
are produced. -/
def wordsAux (acc : List Char) : List Char → List (List Char)
  | [] => if acc = [] then [] else [acc.reverse]
  | c :: rest =>
    if c.isWhitespace then
      if acc = [] then wordsAux [] rest else acc.reverse :: wordsAux [] rest
    else wordsAux (c :: acc) rest

/-- Python str.split() on whitespace, returning the words of a string. -/
def splitWords (s : String) : List String := (wordsAux [] s.data).map String.mk

/-- The keyword k occurs in s as a case-insensitive substring.  This is the
specification-side reading of the Python test keyword.lower() in text where
text is the lowercased string s. -/
def occursCI (k s : String) : Prop := (lowerStr k).data <:+: (lowerStr s).data

instance (k s : String) : Decidable (occursCI k s) := by
  unfold occursCI; infer_instance

/-- EXCLUDE_KEYWORDS of scripts/clean_news.py, transcribed in order. -/
def EXCLUDE_KEYWORDS : List String :=
  ["자주포", "전차", "미사일", "무기", "군수", "방산", "국방",
   "K9", "K2", "한화에어로", "한화디펜스", "defense contract",
   "방위사업", "military contract", "arms deal",
   "DMZ", "Korean War soldiers", "유해 발굴", "전사자",
   "MAMA", "Awards", "시상식", "mourning", "Hong Kong tragedy",
   "K-pop", "idol", "아이돌", "걸그룹", "보이그룹",
   "콘서트", "앨범", "팬미팅", "뮤직비디오",
   "concert", "album", "fan meeting",
   "드라마", "예능", "시청률", "리얼리티 쇼",
   "OTT", "넷플릭스", "디즈니+", "티빙", "웨이브", "쿠팡플레이",
   "Netflix", "Disney+", "OST",
   "열애설", "결별설", "연예계", "연예인 커플",
   "immigration protest", "hindu protest", "farmer protest",
   "구원투수", "스토브리그", "WAR 전체", "지명", "xportsnews",
   "프로축구", "프로야구", "NBA", "MLB",
   "Chip War", "SK하이닉스", "AI 거품론",
   "광고", "협찬", "마케팅", "보도자료",
   "캠페인", "campaign", "프로모션", "promotion",
   "팝업", "popup", "콜라보", "collaboration", "신제품",
   "sponsored", "sponsorship", "affiliate",
   "브랜드 캠페인", "브랜드 콜라보",
   "증시", "코스피", "코스닥", "주가", "지수",
   "증권사", "증권가", "펀드", "리츠", "재테크",
   "stock price", "earnings", "quarterly earnings",
   "investor", "dividend", "IPO", "공모주",
   "채용", "공채", "수시채용", "신입사원", "경력직",
   "job opening", "hiring", "recruitment", "career fair",
   "인턴 모집", "공모전",
   "던킨", "스타벅스", "맥도날드", "버거킹", "엠앤엠", "M&M",
   "초콜릿", "커피", "coffee", "음료",
   "패션", "fashion", "뷰티", "beauty", "화장품", "cosmetic",
   "의류", "clothing", "쇼핑", "shopping",
   "대통령", "국회", "외교부", "장관", "정상회담",
   "부동산", "real estate", "날씨", "weather forecast",
   "맛집", "restaurant", "여행", "travel tip"]

/-- GAMING_REQUIRED of scripts/clean_news.py. -/
def GAMING_REQUIRED : List String :=
  ["pubg", "펍지", "배틀그라운드", "krafton", "크래프톤", "bgmi",
   "free fire", "프리파이어", "call of duty", "콜오브듀티",
   "mobile game", "모바일 게임", "모바일게임",
   "esports", "e-sports", "이스포츠", "pmgc", "pmpl",
   "게임 업데이트", "게임 패치", "게임 대회"]

/-- TRAFFIC_REQUIRED of scripts/clean_news.py. -/
def TRAFFIC_REQUIRED : List String :=
  ["인터넷 차단", "internet shutdown", "통신 장애", "network outage",
   "정전", "power outage", "지진", "earthquake", "태풍", "typhoon",
   "홍수", "flood", "전쟁", "war", "폭발", "explosion", "테러",
   "공휴일", "holiday", "연휴", "명절", "방학", "시험",
   "시위", "protest", "폭동", "riot", "계엄", "curfew"]

/-- Shared body of the three keyword testers of scripts/clean_news.py:
build text as the lowercased f-string of title and summary joined by one
space, then test each keyword, lowercased, for substring containment. -/
def matchesKeyword (title summary : String) (keywords : List String) : Bool :=
  let text := lowerStr (title ++ " " ++ summary)
  keywords.any fun keyword => decide ((lowerStr keyword).data <:+: text.data)

/-- should_exclude of scripts/clean_news.py. -/
def should_exclude (title summary : String) : Bool :=
  matchesKeyword title summary EXCLUDE_KEYWORDS

/-- is_valid_gaming_news of scripts/clean_news.py. -/
def is_valid_gaming_news (title summary : String) : Bool :=
  matchesKeyword title summary GAMING_REQUIRED

/-- is_valid_traffic_news of scripts/clean_news.py. -/
def is_valid_traffic_news (title summary : String) : Bool :=
  matchesKeyword title summary TRAFFIC_REQUIRED

/-- One iteration of the row loop of clean_news in scripts/clean_news.py.
The result is none when the row index is appended to to_remove (the row is
dropped) and some nt when the row is kept, nt being its (possibly updated)
news_type value. -/
def cleanRow (title summary news_type : String) : Option String :=
  if should_exclude title summary then none
  else if news_type = "gaming" ∧ is_valid_gaming_news title summary = false then
    if is_valid_traffic_news title summary then some "traffic_impact" else none
  else if news_type = "" ∨ news_type = "nan" then
    if is_valid_gaming_news title summary then some "gaming"
    else if is_valid_traffic_news title summary then some "traffic_impact"
    else none
  else some news_type

lemma matchesKeyword_iff (title summary : String) (keywords : List String) :
    matchesKeyword title summary keywords = true ↔
      ∃ k ∈ keywords, occursCI k (title ++ " " ++ summary) := by
  simp [matchesKeyword, occursCI, List.any_eq_true]

lemma matchesKeyword_eq_false (title summary : String) (keywords : List String)
    (h : ∀ k ∈ keywords, ¬ occursCI k (title ++ " " ++ summary)) :
    matchesKeyword title summary keywords = false := by
  rcases hb : matchesKeyword title summary keywords with _ | _
  · rfl
  · exfalso
    obtain ⟨k, hk, hocc⟩ := (matchesKeyword_iff title summary keywords).mp hb
    exact h k hk hocc

/-- C9: the membership test of each of the three keyword sets returns true
exactly when some keyword of that set occurs as a case-insensitive
substring of the concatenation title, one space, summary. -/
theorem keyword_match_iff_substring (title summary : String) :
    (should_exclude title summary = true ↔
      ∃ k ∈ EXCLUDE_KEYWORDS, occursCI k (title ++ " " ++ summary)) ∧
    (is_valid_gaming_news title summary = true ↔
      ∃ k ∈ GAMING_REQUIRED, occursCI k (title ++ " " ++ summary)) ∧
    (is_valid_traffic_news title summary = true ↔
      ∃ k ∈ TRAFFIC_REQUIRED, occursCI k (title ++ " " ++ summary)) :=
  ⟨matchesKeyword_iff title summary EXCLUDE_KEYWORDS,
   matchesKeyword_iff title summary GAMING_REQUIRED,
   matchesKeyword_iff title summary TRAFFIC_REQUIRED⟩

/-- C8: when some exclude keyword occurs case-insensitively in the
concatenated title and summary, should_exclude returns true and the
cleaning pass drops the row whatever its news_type and whatever the other
keyword sets would say. -/
theorem exclude_keyword_drops_row (title summary news_type : String)
    (h : ∃ k ∈ EXCLUDE_KEYWORDS, occursCI k (title ++ " " ++ summary)) :
    should_exclude title summary = true ∧
      cleanRow title summary news_type = none := by
  have hse : should_exclude title summary = true :=
    (matchesKeyword_iff title summary EXCLUDE_KEYWORDS).mpr h
  refine ⟨hse, ?_⟩
  simp [cleanRow, hse]

theorem exclude_keyword_drops_row_witness :
    should_exclude "Netflix show" "" = true ∧
      cleanRow "Netflix show" "" "gaming" = none :=
  exclude_keyword_drops_row "Netflix show" "" "gaming"
    ⟨"Netflix", by decide, by decide⟩

/-- C3 counterexample: the row with title zzz, summary qqq and news_type
traffic_impact matches no keyword of any of the three sets, yet the
cleaning pass keeps it, so a keywordless row is not always dropped. -/
theorem clean_news_keeps_keywordless_traffic_row :
    (∀ k ∈ EXCLUDE_KEYWORDS ++ GAMING_REQUIRED ++ TRAFFIC_REQUIRED,
        ¬ occursCI k ("zzz" ++ " " ++ "qqq")) ∧
      cleanRow "zzz" "qqq" "traffic_impact" = some "traffic_impact" := by
  constructor
  · decide
  · decide

/-- C3 amended: a row whose text matches no keyword of any of the three
sets is dropped when its news_type is gaming, empty, or the string nan;
rows with any other news_type are kept unchanged by this pass. -/
theorem clean_news_drops_keywordless_gaming_or_untyped
    (title summary news_type : String)
    (hnone : ∀ k ∈ EXCLUDE_KEYWORDS ++ GAMING_REQUIRED ++ TRAFFIC_REQUIRED,
        ¬ occursCI k (title ++ " " ++ summary))
    (hnt : news_type = "gaming" ∨ news_type = "" ∨ news_type = "nan") :
    cleanRow title summary news_type = none := by
  have hx : ∀ k ∈ EXCLUDE_KEYWORDS, ¬ occursCI k (title ++ " " ++ summary) := by
    intro k hk; exact hnone k (by simp [hk])
  have hg : ∀ k ∈ GAMING_REQUIRED, ¬ occursCI k (title ++ " " ++ summary) := by
    intro k hk; exact hnone k (by simp [hk])
  have ht : ∀ k ∈ TRAFFIC_REQUIRED, ¬ occursCI k (title ++ " " ++ summary) := by
    intro k hk; exact hnone k (by simp [hk])
  have hx' := matchesKeyword_eq_false title summary EXCLUDE_KEYWORDS hx
  have hg' := matchesKeyword_eq_false title summary GAMING_REQUIRED hg
  have ht' := matchesKeyword_eq_false title summary TRAFFIC_REQUIRED ht
  rcases hnt with hnt | hnt | hnt <;> subst hnt <;>
    simp [cleanRow, should_exclude, is_valid_gaming_news, is_valid_traffic_news,
      hx', hg', ht']

theorem clean_news_drops_keywordless_gaming_or_untyped_witness :
    cleanRow "zzz" "qqq" "gaming" = none :=
  clean_news_drops_keywordless_gaming_or_untyped "zzz" "qqq" "gaming"
    (by decide) (Or.inl rfl)

/-- Label table of the outage and block group, a local list of
map_to_group_category in scripts/fetch_news.py. -/
def outage_block_labels : List String :=
  ["internet_shutdown", "tech_outage", "power_outage", "censorship",
   "cyber_attack", "infrastructure_damage"]

/-- Label table of the social crisis group. -/
def social_crisis_labels : List String :=
  ["war_conflict", "terrorism_explosion", "natural_disaster",
   "protest_strike", "curfew", "pandemic", "economic"]

/-- Label table of the seasonal and calendar group. -/
def seasonal_calendar_labels : List String :=
  ["holiday", "school_calendar", "election"]

/-- Label table of the gaming and competitor group. -/
def gaming_competitor_labels : List String :=
  ["gaming", "competitor_game", "social_trend", "sports_event", "major_event"]

/-- map_to_group_category of scripts/fetch_news.py: exact membership in the
four label tables decides the coarse group, anything else is other. -/
def map_to_group_category (detail_category : String) : String :=
  if detail_category ∈ outage_block_labels then "outage_block"
  else if detail_category ∈ social_crisis_labels then "social_crisis"
  else if detail_category ∈ seasonal_calendar_labels then "seasonal_calendar"
  else if detail_category ∈ gaming_competitor_labels then "gaming_competitor"
  else "other"

/-- The five coarse groups named by the data model of the spec. -/
def GROUP_CATEGORIES : List String :=
  ["outage_block", "social_crisis", "seasonal_calendar", "gaming_competitor",
   "other"]

lemma map_to_group_category_mem (s : String) :
    map_to_group_category s ∈ GROUP_CATEGORIES := by
  unfold map_to_group_category GROUP_CATEGORIES
  split
  · simp
  · split
    · simp
    · split
      · simp
      · split <;> simp

/-- continent_map of get_continent in scripts/fetch_news.py. -/
def continent_map : List (String × String) :=
  [("USA", "NORTH AMERICA"), ("Canada", "NORTH AMERICA"),
   ("Mexico", "NORTH AMERICA"),
   ("Brazil", "SOUTH AMERICA"), ("Argentina", "SOUTH AMERICA"),
   ("Germany", "EUROPE"), ("UK", "EUROPE"), ("France", "EUROPE"),
   ("Italy", "EUROPE"), ("Spain", "EUROPE"),
   ("China", "ASIA"), ("India", "ASIA"), ("Japan", "ASIA"),
   ("Korea", "ASIA"), ("South Korea", "ASIA"),
   ("South Africa", "AFRICA"), ("Egypt", "AFRICA"), ("Nigeria", "AFRICA"),
   ("Australia", "OCEANIA"), ("New Zealand", "OCEANIA"),
   ("Russia", "RUSSIA & CIS")]

/-- get_continent of scripts/fetch_news.py: dictionary lookup with default
OTHER. -/
def get_continent (country : String) : String :=
  ((continent_map.lookup country).getD "OTHER")

/-- C7: map_to_group_category maps each known fine-grained label to its one
group, maps every unknown string to other, and always lands in the
five-value enumeration. -/
theorem map_to_group_category_spec :
    (∀ s ∈ outage_block_labels, map_to_group_category s = "outage_block") ∧
    (∀ s ∈ social_crisis_labels, map_to_group_category s = "social_crisis") ∧
    (∀ s ∈ seasonal_calendar_labels,
        map_to_group_category s = "seasonal_calendar") ∧
    (∀ s ∈ gaming_competitor_labels,
        map_to_group_category s = "gaming_competitor") ∧
    (∀ s, s ∉ outage_block_labels ++ social_crisis_labels ++
        seasonal_calendar_labels ++ gaming_competitor_labels →
        map_to_group_category s = "other") ∧
    (∀ s, map_to_group_category s ∈ GROUP_CATEGORIES) := by
  refine ⟨by decide, by decide, by decide, by decide, ?_, map_to_group_category_mem⟩
  intro s hs
  simp only [List.mem_append, not_or] at hs
  obtain ⟨⟨⟨h1, h2⟩, h3⟩, h4⟩ := hs
  simp [map_to_group_category, h1, h2, h3, h4]

theorem map_to_group_category_spec_witness :
    map_to_group_category "protest_strike" = "social_crisis" ∧
      map_to_group_category "zzz" = "other" :=
  ⟨map_to_group_category_spec.2.1 "protest_strike" (by decide),
   map_to_group_category_spec.2.2.2.2.1 "zzz" (by decide)⟩

/-- Record of one news item.  Python passes dictionaries around; the fields
below are the keys the scripts read or write.  Optional fields stand for
keys that a dictionary may lack (none means the key is absent). -/
structure NewsItem where
  date : String
  country : Option String
  continent : Option String
  title : String
  summary : String
  url : String
  source : String
  category : String
  category_group : Option String
  traffic_impact : Option String
  confidence : Option String
  validation : Option String
  openai_summary : Option String
  claude_summary : Option String
deriving DecidableEq

/-- Plain item constructor used by concrete test runs: only title and
summary are set, every other key is absent or empty, as for a freshly
parsed RSS item before refinement. -/
def testItem (title summary : String) : NewsItem :=
  { date := "", country := none, continent := none, title := title,
    summary := summary, url := "", source := "", category := "",
    category_group := none, traffic_impact := none, confidence := none,
    validation := none, openai_summary := none, claude_summary := none }

/-- Outcome of the environment and of the single API call performed by
refine_news_with_ai: the key may be missing from the environment, the HTTP
status may differ from 200, the response may hold no JSON object, the call
may raise, or a JSON object is parsed with the fields the code reads. -/
inductive ApiOutcome where
  | noKey : ApiOutcome
  | httpError : ApiOutcome
  | noJson : ApiOutcome
  | exn : ApiOutcome
  | parsed (relevant : Bool) (category : Option String)
      (country : Option String) (summary_kr : Option String)
      (traffic_impact : Option String) : ApiOutcome
deriving DecidableEq

/-- refine_news_with_ai of scripts/fetch_news.py, with the environment and
the network call abstracted into an ApiOutcome value.  Every fallback path
of the source (unknown api_type, missing key, non-200 status, missing JSON,
exception) returns the input item unchanged; a parsed response with
relevant false returns none; otherwise the refined item is built. -/
def refine_news_with_ai (news_item : NewsItem) (api_type : String)
    (outcome : ApiOutcome) : Option NewsItem :=
  if api_type = "openai" ∨ api_type = "claude" then
    match outcome with
    | ApiOutcome.noKey => some news_item
    | ApiOutcome.httpError => some news_item
    | ApiOutcome.noJson => some news_item
    | ApiOutcome.exn => some news_item
    | ApiOutcome.parsed relevant category country summary_kr traffic =>
      if relevant = false then none
      else
        let detail_category := category.getD "other"
        let refined_item : NewsItem :=
          { news_item with
            category := detail_category,
            category_group := some (map_to_group_category detail_category),
            summary := summary_kr.getD news_item.summary,
            traffic_impact := some (traffic.getD "") }
        if country.getD "" ≠ "" then
          some { refined_item with
                 country := some (country.getD ""),
                 continent := some (get_continent (country.getD "")) }
        else some refined_item
  else some news_item

/-- C2 counterexample: with the OpenAI api_type and no API key in the
environment, refine_news_with_ai returns its input unchanged, and the raw
RSS-shaped input carries no category_group at all, so an item without a
category_group can reach the persistence step. -/
theorem refine_news_missing_key_keeps_item :
    refine_news_with_ai (testItem "t" "s") "openai" ApiOutcome.noKey =
        some (testItem "t" "s") ∧
      (testItem "t" "s").category_group = none := by
  constructor
  · decide
  · decide

/-- C2 amended: every item returned through the successful parse path of
refine_news_with_ai, with a known api_type and a response marked relevant,
carries a category_group drawn from the five-value enumeration. -/
theorem refine_relevant_has_category_group (news_item : NewsItem)
    (api_type : String) (category country summary_kr traffic : Option String)
    (r : NewsItem)
    (hapi : api_type = "openai" ∨ api_type = "claude")
    (h : refine_news_with_ai news_item api_type
        (ApiOutcome.parsed true category country summary_kr traffic) = some r) :
    ∃ g, r.category_group = some g ∧ g ∈ GROUP_CATEGORIES := by
  have hcond : (api_type = "openai" ∨ api_type = "claude") = True := by
    simp [hapi]
  rw [refine_news_with_ai, if_pos (by simp [hcond])] at h
  simp only [Bool.true_eq_false, if_false] at h
  split at h <;>
    · rw [Option.some_inj] at h
      subst h
      exact ⟨map_to_group_category (category.getD "other"), rfl,
        map_to_group_category_mem _⟩

theorem refine_relevant_has_category_group_witness :
    ∃ g, ({ testItem "t" "s" with
              category := "gaming",
              category_group := some "gaming_competitor",
              traffic_impact := some "" } : NewsItem).category_group =
          some g ∧ g ∈ GROUP_CATEGORIES :=
  refine_relevant_has_category_group (testItem "t" "s") "openai"
    (some "gaming") none none none _ (Or.inl rfl) (by decide)

/-- title_similarity, the inner function of cross_validate_news in
scripts/fetch_news.py.  Exact lowercase equality short-circuits to 1; the
word sets come from whitespace splitting of the lowercased titles (dedup
models Python set construction); the score is the Jaccard ratio of the two
word sets as an exact rational. -/
def title_similarity (title1 title2 : String) : ℚ :=
  let title1_lower := lowerStr title1
  let title2_lower := lowerStr title2
  if title1_lower = title2_lower then mkRat 1 1
  else
    let words1 := (splitWords title1_lower).dedup
    let words2 := (splitWords title2_lower).dedup
    if words1 = [] ∨ words2 = [] then mkRat 0 1
    else
      let inter := words1.filter fun w => w ∈ words2
      let union := words1 ++ words2.filter fun w => w ∉ words1
      if union = [] then mkRat 0 1
      else mkRat (Int.ofNat inter.length) union.length

/-- One iteration of the inner matching loop of cross_validate_news: the
state is the triple of matched, best_match_score and best_match. -/
def bestStep (title : String) (st : Bool × ℚ × Option NewsItem)
    (claude_item : NewsItem) : Bool × ℚ × Option NewsItem :=
  let claude_title := lowerStr claude_item.title
  let similarity := title_similarity title claude_title
  if similarity > mkRat 7 10 then
    if similarity > st.2.1 then (true, similarity, some claude_item)
    else (true, st.2.1, st.2.2)
  else st

/-- The whole inner matching loop of cross_validate_news for one OpenAI
item: fold bestStep over the full claude_news list, starting from matched
false, best score 0 and no best match. -/
def findBest (title : String) (claude_news : List NewsItem) :
    Bool × ℚ × Option NewsItem :=
  claude_news.foldl (bestStep title) (false, mkRat 0 1, none)

/-- Integer percentage used in the validation message, modelling the
percent format with zero digits applied to the similarity score: one
hundred times the exact rational, rounded half to even. -/
def pctRound (q : ℚ) : ℤ :=
  let n := q.num * 100
  let d : ℤ := (q.den : ℤ)
  let f := Int.fdiv n d
  let r := n - f * d
  if 2 * r < d then f
  else if d < 2 * r then f + 1
  else if f % 2 = 0 then f else f + 1

/-- Validation message of a high-confidence match. -/
def highMsg (score : ℚ) : String :=
  "OpenAI + Claude 일치 (유사도: " ++ toString (pctRound score) ++ "%)"

/-- The validated item built in the matched branch of cross_validate_news:
a copy of the OpenAI item with confidence high, the validation message,
both summaries recorded, and the longer summary kept. -/
def highItem (news best_match : NewsItem) (best_match_score : ℚ) : NewsItem :=
  { news with
    confidence := some "high",
    validation := some (highMsg best_match_score),
    openai_summary := some news.summary,
    claude_summary := some best_match.summary,
    summary := if best_match.summary.length > news.summary.length
      then best_match.summary else news.summary }

/-- The validated item built in the single-source branches: a copy of the
item with confidence medium and the given source tag. -/
def mediumItem (news : NewsItem) (tag : String) : NewsItem :=
  { news with confidence := some "medium", validation := some tag }

/-- One iteration of the OpenAI loop of cross_validate_news.  The state is
the pair of validated_news and seen_titles (the Python set of lowercased
titles is a list queried by membership). -/
def stepA (claude_news : List NewsItem)
    (acc : List NewsItem × List String) (news : NewsItem) :
    List NewsItem × List String :=
  let title := lowerStr news.title
  if title ∈ acc.2 then acc
  else
    match findBest title claude_news with
    | (true, best_match_score, some best_match) =>
        (acc.1 ++ [highItem news best_match best_match_score],
         lowerStr best_match.title :: title :: acc.2)
    | _ =>
        (acc.1 ++ [mediumItem news "OpenAI only"], title :: acc.2)

/-- One iteration of the Claude loop of cross_validate_news: items whose
lowercased title was never seen are added with confidence medium. -/
def stepB (acc : List NewsItem × List String) (news : NewsItem) :
    List NewsItem × List String :=
  let title := lowerStr news.title
  if title ∈ acc.2 then acc
  else (acc.1 ++ [mediumItem news "Claude only"], title :: acc.2)

/-- Code-point comparison of character lists, modelling Python string
comparison used by the sort key. -/
def strLt : List Char → List Char → Bool
  | [], [] => false
  | [], _ :: _ => true
  | _ :: _, [] => false
  | c :: cs, d :: ds => if c < d then true else if d < c then false else strLt cs ds

/-- First component of the Python sort key: the boolean
confidence equals high. -/
def confKey (x : NewsItem) : Bool := x.confidence = some "high"

/-- Strict ascending order on the Python sort key, the pair of confKey
(False before True) and title. -/
def keyLt (x y : NewsItem) : Bool :=
  match confKey x, confKey y with
  | false, true => true
  | true, false => false
  | _, _ => strLt x.title.data y.title.data

/-- Stable insertion for the sort: a new element goes after every element
it is not strictly below. -/
def insertStable (x : NewsItem) : List NewsItem → List NewsItem
  | [] => [x]
  | y :: ys => if keyLt x y then x :: y :: ys else y :: insertStable x ys

/-- Stable ascending sort by keyLt, modelling Python list.sort with the key
of cross_validate_news: the stable ascending ordering of a list under a
total key is unique, so stable insertion sorting gives the same list as
Python sorting. -/
def sortStable (l : List NewsItem) : List NewsItem :=
  l.foldl (fun acc x => insertStable x acc) []

/-- cross_validate_news of scripts/fetch_news.py: the OpenAI loop, then the
Claude loop, then the sort on the key of confidence equals high and
title. -/
def cross_validate_news (openai_news claude_news : List NewsItem) :
    List NewsItem :=
  let afterA := openai_news.foldl (stepA claude_news) ([], [])
  let afterB := claude_news.foldl stepB afterA
  sortStable afterB.1

/-- Agreement of two items on every field other than confidence,
validation, summary, openai_summary and claude_summary: the fields
cross_validate_news is allowed to touch on the copies it emits. -/
def frameEq (v n : NewsItem) : Prop :=
  v.date = n.date ∧ v.country = n.country ∧ v.continent = n.continent ∧
  v.title = n.title ∧ v.url = n.url ∧ v.source = n.source ∧
  v.category = n.category ∧ v.category_group = n.category_group ∧
  v.traffic_impact = n.traffic_impact

instance (v n : NewsItem) : Decidable (frameEq v n) := by
  unfold frameEq; infer_instance

lemma frameEq_highItem (news best : NewsItem) (s : ℚ) :
    frameEq (highItem news best s) news :=
  ⟨rfl, rfl, rfl, rfl, rfl, rfl, rfl, rfl, rfl⟩

lemma frameEq_mediumItem (news : NewsItem) (tag : String) :
    frameEq (mediumItem news tag) news :=
  ⟨rfl, rfl, rfl, rfl, rfl, rfl, rfl, rfl, rfl⟩

lemma bestFold_mem (title : String) (C : List NewsItem) :
    ∀ (l : List NewsItem) (st : Bool × ℚ × Option NewsItem),
      (∀ x ∈ l, x ∈ C) → (∀ b, st.2.2 = some b → b ∈ C) →
      ∀ b, (l.foldl (bestStep title) st).2.2 = some b → b ∈ C := by
  intro l
  induction l with
  | nil =>
    intro st _ hst b hb
    exact hst b hb
  | cons x xs ih =>
    intro st hsub hst b hb
    refine ih (bestStep title st x) (fun y hy => hsub y (by simp [hy])) ?_ b hb
    intro c hc
    simp only [bestStep] at hc
    split at hc
    · split at hc
      · simp only [Option.some.injEq] at hc
        exact hc ▸ hsub x (by simp)
      · exact hst c hc
    · exact hst c hc

lemma findBest_mem (title : String) (C : List NewsItem) :
    ∀ b, (findBest title C).2.2 = some b → b ∈ C := by
  refine bestFold_mem title C C (false, mkRat 0 1, none) (fun x hx => hx) ?_
  intro b hb
  simp at hb

/-- Shape of one loop iteration of cross_validate_news: either the item is
skipped and the state is unchanged, or exactly one validated copy of the
current item is appended, its lowercased title was not yet seen, the seen
set only grows and records the new title, and the copy is either a medium
item or carries the summary of some item of the pool as claude_summary. -/
def StepShape (pool : List NewsItem)
    (step : List NewsItem × List String → NewsItem → List NewsItem × List String) :
    Prop :=
  ∀ acc news, step acc news = acc ∨
    ∃ v s2, step acc news = (acc.1 ++ [v], s2) ∧ frameEq v news ∧
      lowerStr news.title ∉ acc.2 ∧ lowerStr v.title ∈ s2 ∧
      (∀ x ∈ acc.2, x ∈ s2) ∧
      (v.confidence = some "medium" ∨
        ∃ b ∈ pool, v.claude_summary = some b.summary)

lemma stepA_shape (claude_news : List NewsItem) :
    StepShape claude_news (stepA claude_news) := by
  intro acc news
  by_cases h : lowerStr news.title ∈ acc.2
  · left
    simp [stepA, h]
  · right
    rcases hfb : findBest (lowerStr news.title) claude_news with ⟨m, score, bo⟩
    cases m <;> cases bo
    · refine ⟨mediumItem news "OpenAI only", lowerStr news.title :: acc.2,
        ?_, frameEq_mediumItem news _, h, ?_, ?_, Or.inl rfl⟩
      · simp [stepA, h, hfb]
      · simp [mediumItem]
      · intro x hx; simp [hx]
    · refine ⟨mediumItem news "OpenAI only", lowerStr news.title :: acc.2,
        ?_, frameEq_mediumItem news _, h, ?_, ?_, Or.inl rfl⟩
      · simp [stepA, h, hfb]
      · simp [mediumItem]
      · intro x hx; simp [hx]
    · refine ⟨mediumItem news "OpenAI only", lowerStr news.title :: acc.2,
        ?_, frameEq_mediumItem news _, h, ?_, ?_, Or.inl rfl⟩
      · simp [stepA, h, hfb]
      · simp [mediumItem]
      · intro x hx; simp [hx]
    · rename_i best
      refine ⟨highItem news best score,
        lowerStr best.title :: lowerStr news.title :: acc.2,
        ?_, frameEq_highItem news best score, h, ?_, ?_, ?_⟩
      · simp [stepA, h, hfb]
      · simp [highItem]
      · intro x hx; simp [hx]
      · exact Or.inr ⟨best, findBest_mem _ _ best (by rw [hfb]), rfl⟩

lemma stepB_shape (pool : List NewsItem) : StepShape pool stepB := by
  intro acc news
  by_cases h : lowerStr news.title ∈ acc.2
  · left
    simp [stepB, h]
  · right
    refine ⟨mediumItem news "Claude only", lowerStr news.title :: acc.2,
      ?_, frameEq_mediumItem news _, h, ?_, ?_, Or.inl rfl⟩
    · simp [stepB, h]
    · simp [mediumItem]
    · intro x hx; simp [hx]

/-- Invariant of the two loops: every emitted item's lowercased title is in
seen_titles, and emitted items have pairwise distinct lowercased titles. -/
def SeenInv (acc : List NewsItem × List String) : Prop :=
  (∀ v ∈ acc.1, lowerStr v.title ∈ acc.2) ∧
  acc.1.Pairwise fun u w => lowerStr u.title ≠ lowerStr w.title

lemma foldl_seenInv {pool : List NewsItem}
    {step : List NewsItem × List String → NewsItem → List NewsItem × List String}
    (hs : StepShape pool step) :
    ∀ (xs : List NewsItem) (acc), SeenInv acc → SeenInv (xs.foldl step acc) := by
  intro xs
  induction xs with
  | nil => intro acc h; exact h
  | cons x xs ih =>
    intro acc h
    refine ih (step acc x) ?_
    rcases hs acc x with heq | ⟨v, s2, heq, hframe, hnew, hvmem, hsub, _⟩
    · rw [heq]; exact h
    · rw [heq]
      constructor
      · intro w hw
        rcases List.mem_append.mp hw with hw | hw
        · exact hsub _ (h.1 w hw)
        · simp only [List.mem_singleton] at hw
          subst hw
          exact hvmem
      · rw [List.pairwise_append]
        refine ⟨h.2, List.pairwise_singleton _ _, ?_⟩
        intro u hu w hw
        simp only [List.mem_singleton] at hw
        subst hw
        intro hcontra
        have hu2 : lowerStr u.title ∈ acc.2 := h.1 u hu
        rw [hcontra, hframe.2.2.2.1] at hu2
        exact hnew hu2

lemma foldl_frame {pool : List NewsItem}
    {step : List NewsItem × List String → NewsItem → List NewsItem × List String}
    (hs : StepShape pool step) (src : List NewsItem) :
    ∀ (xs : List NewsItem) (acc),
      (∀ x ∈ xs, x ∈ src) →
      (∀ v ∈ acc.1, ∃ n ∈ src, frameEq v n) →
      ∀ v ∈ (xs.foldl step acc).1, ∃ n ∈ src, frameEq v n := by
  intro xs
  induction xs with
  | nil => intro acc _ h; exact h
  | cons x xs ih =>
    intro acc hsrc h
    refine ih (step acc x) (fun y hy => hsrc y (by simp [hy])) ?_
    rcases hs acc x with heq | ⟨v, s2, heq, hframe, _, _, _, _⟩
    · rw [heq]; exact h
    · rw [heq]
      intro w hw
      rcases List.mem_append.mp hw with hw | hw
      · exact h w hw
      · simp only [List.mem_singleton] at hw
        subst hw
        exact ⟨x, hsrc x (by simp), hframe⟩

lemma foldl_conf {pool : List NewsItem}
    {step : List NewsItem × List String → NewsItem → List NewsItem × List String}
    (hs : StepShape pool step) :
    ∀ (xs : List NewsItem) (acc),
      (∀ v ∈ acc.1, v.confidence = some "high" →
        ∃ b ∈ pool, v.claude_summary = some b.summary) →
      ∀ v ∈ (xs.foldl step acc).1, v.confidence = some "high" →
        ∃ b ∈ pool, v.claude_summary = some b.summary := by
  intro xs
  induction xs with
  | nil => intro acc h; exact h
  | cons x xs ih =>
    intro acc h
    refine ih (step acc x) ?_
    rcases hs acc x with heq | ⟨v, s2, heq, _, _, _, _, hconf⟩
    · rw [heq]; exact h
    · rw [heq]
      intro w hw hwc
      rcases List.mem_append.mp hw with hw | hw
      · exact h w hw hwc
      · simp only [List.mem_singleton] at hw
        subst hw
        rcases hconf with hmed | hex
        · rw [hmed] at hwc
          simp at hwc
        · exact hex

lemma insertStable_perm (x : NewsItem) (l : List NewsItem) :
    (insertStable x l).Perm (x :: l) := by
  induction l with
  | nil => simp [insertStable]
  | cons y ys ih =>
    unfold insertStable
    split
    · exact List.Perm.refl _
    · exact (ih.cons y).trans (List.Perm.swap x y ys)

lemma foldl_insert_perm :
    ∀ (l acc : List NewsItem),
      (l.foldl (fun a x => insertStable x a) acc).Perm (acc ++ l) := by
  intro l
  induction l with
  | nil => intro acc; simp
  | cons x xs ih =>
    intro acc
    have h1 := ih (insertStable x acc)
    have h2 : (insertStable x acc ++ xs).Perm ((x :: acc) ++ xs) :=
      (insertStable_perm x acc).append_right xs
    refine (h1.trans (h2.trans ?_))
    exact List.perm_middle.symm

lemma sortStable_perm (l : List NewsItem) : (sortStable l).Perm l := by
  have h := foldl_insert_perm l []
  simpa [sortStable] using h

/-- C6: cross_validate_news never emits two items with the same lowercased
title: the output is pairwise distinct on lowercased titles for every pair
of input lists. -/
theorem cross_validate_no_duplicate_titles (A B : List NewsItem) :
    (cross_validate_news A B).Pairwise
      fun u w => lowerStr u.title ≠ lowerStr w.title := by
  simp only [cross_validate_news]
  have h1 : SeenInv (A.foldl (stepA B) ([], [])) :=
    foldl_seenInv (stepA_shape B) A ([], []) ⟨by simp, by simp⟩
  have h2 : SeenInv (B.foldl stepB (A.foldl (stepA B) ([], []))) :=
    foldl_seenInv (stepB_shape B) B _ h1
  have hsymm : ∀ {u w : NewsItem},
      lowerStr u.title ≠ lowerStr w.title →
        lowerStr w.title ≠ lowerStr u.title := fun h => h.symm
  exact (List.Perm.pairwise_iff hsymm (sortStable_perm _)).mpr h2.2

/-- C10: every item emitted by cross_validate_news is a copy of one of the
input items, agreeing with it on every field other than confidence,
validation, summary, openai_summary and claude_summary; the inputs
themselves are values and are never mutated. -/
theorem cross_validate_frame_condition (A B : List NewsItem) (v : NewsItem)
    (hv : v ∈ cross_validate_news A B) :
    ∃ n, (n ∈ A ∨ n ∈ B) ∧ frameEq v n := by
  simp only [cross_validate_news] at hv
  have hv' := (sortStable_perm _).mem_iff.mp hv
  have h1 := foldl_frame (stepA_shape B) (A ++ B) A ([], [])
    (fun x hx => List.mem_append_left _ hx) (by simp)
  have h2 := foldl_frame (stepB_shape (A ++ B)) (A ++ B) B
    (A.foldl (stepA B) ([], [])) (fun x hx => List.mem_append_right _ hx) h1
  obtain ⟨n, hn, hf⟩ := h2 v hv'
  exact ⟨n, List.mem_append.mp hn, hf⟩

theorem cross_validate_frame_condition_witness :
    ∃ n, (n ∈ [testItem "w" "s"] ∨ n ∈ ([] : List NewsItem)) ∧
      frameEq (mediumItem (testItem "w" "s") "OpenAI only") n :=
  cross_validate_frame_condition [testItem "w" "s"] []
    (mediumItem (testItem "w" "s") "OpenAI only") (by decide)

/-- C4 counterexample: with two OpenAI items both similar to the single
Claude item (titled a b c d with summary SB), both outputs are merged as
high-confidence matches carrying that one Claude item's summary, so a
listB item is not consumed after its first match. -/
theorem cross_validate_reuses_claude_item :
    ((cross_validate_news
        [testItem "a b c d" "", testItem "a b c d x" ""]
        [testItem "a b c d" "SB"]).map
      fun v => (v.confidence, v.claude_summary)) =
    [(some "high", some "SB"), (some "high", some "SB")] := by decide

/-- C4 amended: each OpenAI item is merged with at most one Claude item,
namely its best-scoring match, and every high-confidence output carries
the summary of some item of listB; but the search ranges over all of
listB, consumed or not, so one listB item may serve as the match of
several listA items. -/
theorem cross_validate_high_has_one_claude_source (A B : List NewsItem)
    (v : NewsItem) (hv : v ∈ cross_validate_news A B)
    (hc : v.confidence = some "high") :
    ∃ b ∈ B, v.claude_summary = some b.summary := by
  simp only [cross_validate_news] at hv
  have hv' := (sortStable_perm _).mem_iff.mp hv
  have h1 := foldl_conf (stepA_shape B) A ([], []) (by simp)
  have h2 := foldl_conf (stepB_shape B) B (A.foldl (stepA B) ([], [])) h1
  exact h2 v hv' hc

theorem cross_validate_high_has_one_claude_source_witness :
    ∃ b ∈ [testItem "PUBG Mobile update released" "bb"],
      (highItem (testItem "pubg mobile update released" "a")
          (testItem "PUBG Mobile update released" "bb")
          (mkRat 1 1)).claude_summary = some b.summary :=
  cross_validate_high_has_one_claude_source
    [testItem "pubg mobile update released" "a"]
    [testItem "PUBG Mobile update released" "bb"]
    (highItem (testItem "pubg mobile update released" "a")
      (testItem "PUBG Mobile update released" "bb") (mkRat 1 1))
    (by decide) (by decide)

/-- C5 counterexample: both titles empty gives an empty word set, yet the
exact-equality short circuit fires first and title_similarity returns 1,
not 0. -/
theorem title_similarity_empty_equal_is_one :
    splitWords (lowerStr "") = [] ∧ title_similarity "" "" = 1 := by
  constructor
  · decide
  · have h : title_similarity "" "" = mkRat 1 1 := by decide
    rw [h]
    norm_num [Rat.mkRat_eq_div]

/-- C5 amended: when the lowercased titles differ and at least one of the
two word sets is empty, title_similarity returns 0. -/
theorem title_similarity_empty_words_of_ne (title1 title2 : String)
    (hne : lowerStr title1 ≠ lowerStr title2)
    (hw : splitWords (lowerStr title1) = [] ∨
      splitWords (lowerStr title2) = []) :
    title_similarity title1 title2 = 0 := by
  simp only [title_similarity]
  rw [if_neg hne]
  have h : (splitWords (lowerStr title1)).dedup = [] ∨
      (splitWords (lowerStr title2)).dedup = [] := by
    rcases hw with h | h
    · exact Or.inl (by rw [h]; rfl)
    · exact Or.inr (by rw [h]; rfl)
  rw [if_pos h]
  norm_num [Rat.mkRat_eq_div]

theorem title_similarity_empty_words_of_ne_witness :
    splitWords (lowerStr "") = [] ∧ title_similarity "" "x" = 0 :=
  ⟨by decide, title_similarity_empty_words_of_ne "" "x" (by decide)
    (Or.inl (by decide))⟩

/-- C1: run of cross_validate_news on a failing input.  The list
listA = [title a, title b], listB = [title b] produces one medium and one
high item, and the output places the medium item first: the sort key
(confidence equals high, title) is used ascending without reverse, so
medium-confidence items precede high-confidence ones, contrary to the
claim and to the comment in the source. -/
theorem cross_validate_sort_puts_medium_first :
    ((cross_validate_news [testItem "a" "", testItem "b" ""]
        [testItem "b" ""]).map fun v => v.confidence) =
      [some "medium", some "high"] := by decide

end NewsPipeline
